import Mathlib

/-!
# Shallow embedding of the SimpleBookStore2 application (src/bookstore.py)

The program keeps two persisted tables (inventory CSV and sales CSV), a
process-wide in-memory cart, and a receipt file.  Every public operation
re-loads the inventory CSV at its start and persists it at its end, so the
`inventory` and `sales` fields of `StoreState` model the *persisted* tables,
the `cart` field models the global `cart_items` list, and `receipt` models
the last written receipt file.

Prices are modelled as `Rat` (the program uses decimal prices such as 499.0),
stocks and quantities as `Int` (the UI can supply negative numbers; nothing in
the code restricts them).

Pandas detail kept in the model: writing a row whose Author is the empty
string to CSV produces an empty cell, and `pd.read_csv` parses an empty cell
as NaN.  Since operations always work on the re-loaded table, an author is
stored as `Option String` where `none` stands for a NaN / missing author, and
`add_book` stores an empty author string as `none` (`csvAuthor`).
-/

/-- A row of the inventory table (`books_inventory.csv`):
Title, Author, Publisher, Stock, Price. -/
structure Book where
  title : String
  author : Option String
  publisher : String
  stock : Int
  price : Rat
deriving DecidableEq, Repr

/-- An element of the global `cart_items` list: the dict
`{"Title": ..., "Quantity": ..., "Price": ...}` appended by `add_to_cart`. -/
structure CartLine where
  title : String
  quantity : Int
  price : Rat
deriving DecidableEq, Repr

/-- A row of the sales table (`sales_history.csv`):
Date, Title, Quantity, PricePerUnit, Total. -/
structure SaleRecord where
  date : String
  title : String
  quantity : Int
  pricePerUnit : Rat
  total : Rat
deriving DecidableEq, Repr

/-- The contents of the receipt PDF written by `generate_pdf_receipt`:
the generation date, one line per cart item, and the total amount. -/
structure Receipt where
  date : String
  lines : List CartLine
  total : Rat
deriving DecidableEq, Repr

/-- The whole observable program state: the two persisted tables, the
in-memory cart, and the receipt file (if one has been written). -/
structure StoreState where
  inventory : List Book
  sales : List SaleRecord
  cart : List CartLine
  receipt : Option Receipt
deriving DecidableEq, Repr

/-- The distinct result messages produced by the operations, one constructor
per `return` string of the source (with the data interpolated into it). -/
inductive Msg where
  | bookNotFoundCart                          -- "❌ Book not found."  (add_to_cart)
  | invalidQuantity                           -- "⚠️ Enter a valid quantity."
  | addedToCart (q : Int) (t : String)        -- "🛒 Added {q} x \x7bt} to cart."
  | cartEmpty                                 -- "🛒 Cart is empty."
  | bookNotFoundCheckout (t : String)         -- "❌ Book ... not found in stock."
  | notEnoughStock (t : String) (avail : Int) -- "❌ Not enough stock for ... Available: ..."
  | purchaseSuccess (total : Rat)             -- "✅ Purchase successful! Total: ..."
  | bookExists                                -- "❌ Book already exists."  (add_book)
  | bookAdded                                 -- "✅ Book added successfully."
  | bookNotFoundAdmin                         -- "❌ Book not found."  (edit_book / remove_book)
  | bookUpdated                               -- "✅ Book updated."
  | bookRemoved                               -- "✅ Book removed."
deriving DecidableEq, Repr

/-- A Python exception escaping an operation. -/
inductive PyExn where
  | nameError (name : String)
deriving DecidableEq, Repr

/-- First row of `df` whose Title equals `t`: the row selected by
`df[df["Title"] == t].iloc[0]` / `.index[0]`; `none` exactly when
`t not in df["Title"].values`. -/
def findBook : List Book → String → Option Book
  | [], _ => none
  | b :: rest, t => if b.title = t then some b else findBook rest t

/-- Author value as it survives the CSV round trip: an empty string is
written as an empty cell, which `pd.read_csv` reads back as NaN (`none`). -/
def csvAuthor (a : String) : Option String :=
  if a = "" then none else some a

/-- `add_to_cart(title, quantity)` (src/bookstore.py lines 80-94):
returns "Book not found" if the title is absent from the inventory,
then "invalid quantity" if `quantity <= 0`, otherwise appends one new
cart line whose Price is the current price of the first matching row. -/
def add_to_cart (s : StoreState) (title : String) (quantity : Int) :
    Msg × StoreState :=
  match findBook s.inventory title with
  | none => (.bookNotFoundCart, s)
  | some row =>
    if quantity ≤ 0 then (.invalidQuantity, s)
    else (.addedToCart quantity title,
          { s with cart := s.cart ++ [{ title := title, quantity := quantity,
                                        price := row.price }] })

/-- Validation loop of `checkout` (lines 114-120): scan the cart in order;
the first line whose title is absent, or whose quantity exceeds the stock of
the first matching row, aborts with the corresponding message.  The stock
compared against is always the one in the loaded table (`df` is not modified
during validation). -/
def validateCart (df : List Book) : List CartLine → Option Msg
  | [] => none
  | item :: rest =>
    match findBook df item.title with
    | none => some (.bookNotFoundCheckout item.title)
    | some row =>
      if row.stock < item.quantity then some (.notEnoughStock item.title row.stock)
      else validateCart df rest

/-- `df.at[idx[0], "Stock"] -= q` (line 125): decrement the stock of the
first row whose Title is `t`; all other rows are untouched. -/
def decStock : List Book → String → Int → List Book
  | [], _, _ => []
  | b :: rest, t, q =>
    if b.title = t then { b with stock := b.stock - q } :: rest
    else b :: decStock rest t q

/-- Apply phase of `checkout` (lines 123-127) restricted to the inventory:
fold the stock decrements over the cart in cart order. -/
def applyPurchases : List Book → List CartLine → List Book
  | df, [] => df
  | df, l :: rest => applyPurchases (decStock df l.title l.quantity) rest

/-- The sale row appended by `save_sale(title, quantity, price)` for one
cart line (lines 49-59). -/
def mkSale (now : String) (item : CartLine) : SaleRecord :=
  { date := now, title := item.title, quantity := item.quantity,
    pricePerUnit := item.price, total := (item.quantity : Rat) * item.price }

/-- The grand total accumulated by the apply loop:
`total += item["Quantity"] * item["Price"]` starting from 0. -/
def cartTotal (cart : List CartLine) : Rat :=
  cart.foldl (fun acc l => acc + (l.quantity : Rat) * l.price) 0

/-- `checkout()` (lines 108-132).  Empty cart: return the "cart is empty"
message with no receipt.  Then validate every line (no mutation); the first
failure returns its message with the state untouched.  If validation passes,
the loop decrements stocks and appends one sale row per line (the sales CSV
is saved inside the loop, the inventory CSV once after it), the receipt PDF
is written — and then line 131 executes `cart.clear()`.  No global named
`cart` exists anywhere in the module (the cart list is `cart_items`), so this
raises `NameError: name 'cart' is not defined`: the exception propagates out
of `checkout`, the success return on line 132 is never reached, and the cart
is left unmodified. -/
def checkout (s : StoreState) (now : String) :
    Except PyExn (Msg × Option String) × StoreState :=
  if s.cart = [] then (.ok (.cartEmpty, none), s)
  else
    match validateCart s.inventory s.cart with
    | some m => (.ok (m, none), s)
    | none =>
      (.error (.nameError "cart"),
       { s with inventory := applyPurchases s.inventory s.cart,
                sales := s.sales ++ s.cart.map (mkSale now),
                receipt := some { date := now, lines := s.cart,
                                  total := cartTotal s.cart } })

/-- `get_unique_authors()` (lines 135-137):
`sorted(df["Author"].dropna().unique().tolist())` — drop the NaN authors,
keep one occurrence of each remaining value, sort.  It only reads the
inventory CSV, so the state component is returned unchanged. -/
def get_unique_authors (s : StoreState) : List String × StoreState :=
  (List.insertionSort (· ≤ ·) (s.inventory.filterMap Book.author).dedup, s)

/-- `add_book(title, author_select, author_input, publisher, stock, price)`
(lines 139-153): the author is `author_input` when "Other" is selected,
otherwise `author_select`; reject an already-present title, otherwise append
one new row and persist. -/
def add_book (s : StoreState) (title author_select author_input publisher : String)
    (stock : Int) (price : Rat) : Msg × StoreState :=
  let author := if author_select = "Other" then author_input else author_select
  if (findBook s.inventory title).isSome then (.bookExists, s)
  else (.bookAdded,
        { s with inventory := s.inventory ++
            [{ title := title, author := csvAuthor author, publisher := publisher,
               stock := stock, price := price }] })

/-- The in-place update of `edit_book` (lines 160-163) on the first row whose
Title is `t`: Stock is overwritten only when `new_stock >= 0`, Price only
when `new_price >= 0`; every other row and field is untouched. -/
def editFirst : List Book → String → Int → Rat → List Book
  | [], _, _, _ => []
  | b :: rest, t, ns, np =>
    if b.title = t then
      { b with stock := if ns ≥ 0 then ns else b.stock,
               price := if np ≥ 0 then np else b.price } :: rest
    else b :: editFirst rest t ns np

/-- `edit_book(title, new_stock, new_price)` (lines 155-165). -/
def edit_book (s : StoreState) (title : String) (new_stock : Int)
    (new_price : Rat) : Msg × StoreState :=
  if (findBook s.inventory title).isSome then
    (.bookUpdated, { s with inventory := editFirst s.inventory title new_stock new_price })
  else (.bookNotFoundAdmin, s)

/-- `remove_book(title)` (lines 167-173): `df = df[df["Title"] != title]`
deletes every row with that title. -/
def remove_book (s : StoreState) (title : String) : Msg × StoreState :=
  if (findBook s.inventory title).isSome then
    (.bookRemoved, { s with inventory := s.inventory.filter (fun b => b.title != title) })
  else (.bookNotFoundAdmin, s)

/-- One admin operation, for reasoning about arbitrary operation sequences. -/
inductive AdminOp where
  | addB (title author_select author_input publisher : String) (stock : Int) (price : Rat)
  | editB (title : String) (new_stock : Int) (new_price : Rat)
  | removeB (title : String)
deriving DecidableEq, Repr

/-- Effect of one admin operation on the state. -/
def applyOp (s : StoreState) : AdminOp → StoreState
  | .addB t a1 a2 p st pr => (add_book s t a1 a2 p st pr).2
  | .editB t ns np => (edit_book s t ns np).2
  | .removeB t => (remove_book s t).2

/-- Effect of a sequence of admin operations. -/
def applyOps (s : StoreState) (ops : List AdminOp) : StoreState :=
  ops.foldl applyOp s

/-- Title uniqueness of the inventory table. -/
def TitlesNodup (s : StoreState) : Prop :=
  (s.inventory.map Book.title).Nodup

instance : DecidablePred TitlesNodup :=
  fun s => inferInstanceAs (Decidable ((s.inventory.map Book.title).Nodup))

/-- Every stock in the inventory table is non-negative. -/
def StocksNonneg (s : StoreState) : Prop :=
  ∀ b ∈ s.inventory, 0 ≤ b.stock

instance : DecidablePred StocksNonneg :=
  fun s => inferInstanceAs (Decidable (∀ b ∈ s.inventory, 0 ≤ b.stock))

/-- Total quantity requested by the cart for one title. -/
def sumQ : List CartLine → String → Int
  | [], _ => 0
  | l :: rest, t => (if l.title = t then l.quantity else 0) + sumQ rest t

instance {e a : Type} [DecidableEq e] [DecidableEq a] : DecidableEq (Except e a)
  | .error x, .error y =>
    if h : x = y then .isTrue (by rw [h]) else .isFalse (by intro c; cases c; exact h rfl)
  | .ok x, .ok y =>
    if h : x = y then .isTrue (by rw [h]) else .isFalse (by intro c; cases c; exact h rfl)
  | .error _, .ok _ => .isFalse (by intro c; cases c)
  | .ok _, .error _ => .isFalse (by intro c; cases c)

lemma findBook_eq_none_iff {df : List Book} {t : String} :
    findBook df t = none ↔ ∀ b ∈ df, b.title ≠ t := by
  induction df with
  | nil => simp [findBook]
  | cons hd tl ih =>
    by_cases h : hd.title = t
    · simp [findBook, h]
    · simp [findBook, h, ih]

lemma findBook_isSome_iff {df : List Book} {t : String} :
    (findBook df t).isSome ↔ ∃ b ∈ df, b.title = t := by
  rw [Option.isSome_iff_ne_none, ne_eq, findBook_eq_none_iff]
  push_neg
  rfl

/-- Checkout validation rejects the line `l` against the table `df`: its
title is absent, or its quantity exceeds the stock of the first matching
row. -/
def BadLine (df : List Book) (l : CartLine) : Prop :=
  findBook df l.title = none ∨ ∃ b, findBook df l.title = some b ∧ b.stock < l.quantity

/-- The validation loop fails exactly when some cart line is bad. -/
lemma validateCart_fails_iff {df : List Book} {cart : List CartLine} :
    (∃ m, validateCart df cart = some m) ↔ ∃ l ∈ cart, BadLine df l := by
  induction cart with
  | nil => simp [validateCart]
  | cons hd tl ih =>
    cases hfb : findBook df hd.title with
    | none =>
      simp only [validateCart, hfb]
      constructor
      · intro _
        exact ⟨hd, List.mem_cons_self hd tl, Or.inl hfb⟩
      · intro _
        exact ⟨_, rfl⟩
    | some row =>
      by_cases hq : row.stock < hd.quantity
      · simp only [validateCart, hfb, if_pos hq]
        constructor
        · intro _
          exact ⟨hd, List.mem_cons_self hd tl, Or.inr ⟨row, hfb, hq⟩⟩
        · intro _
          exact ⟨_, rfl⟩
      · simp only [validateCart, hfb, if_neg hq]
        rw [ih]
        constructor
        · rintro ⟨l, hl, hbad⟩
          exact ⟨l, List.mem_cons_of_mem _ hl, hbad⟩
        · rintro ⟨l, hl, hbad⟩
          rcases List.mem_cons.mp hl with rfl | hmem
          · rcases hbad with hnone | ⟨b, hb, hlt⟩
            · rw [hfb] at hnone; cases hnone
            · rw [hfb] at hb
              cases hb
              exact absurd hlt hq
          · exact ⟨l, hmem, hbad⟩

/-- The Dune row of the spec scenarios: stock 5, price 499.0. -/
def dune : Book :=
  { title := "Dune", author := some "Herbert", publisher := "Ace",
    stock := 5, price := 499 }

/-- Scenario of claim C1: Dune has stock 5 and the cart holds two lines for
Dune, of quantity 3 and quantity 4. -/
def dupLineStore : StoreState :=
  { inventory := [dune], sales := [],
    cart := [{ title := "Dune", quantity := 3, price := 499 },
             { title := "Dune", quantity := 4, price := 499 }],
    receipt := none }

/-- Claim C1 (code divergence): with stock 5 and two Dune lines of total
quantity 7, validation compares each line separately against the stock
(3 ≤ 5 and 4 ≤ 5), so it passes instead of failing with the insufficient
stock message; the apply phase then drives the stock to −2 and appends two
sale rows, after which `cart.clear()` raises `NameError`. -/
theorem checkout_duplicate_lines_oversells :
    validateCart dupLineStore.inventory dupLineStore.cart = none ∧
    (checkout dupLineStore "2026-10-12").1 ≠
      Except.ok (Msg.notEnoughStock "Dune" 5, none) ∧
    (checkout dupLineStore "2026-10-12").1 = .error (.nameError "cart") ∧
    (checkout dupLineStore "2026-10-12").2.inventory.map Book.stock = [-2] ∧
    (checkout dupLineStore "2026-10-12").2.sales.length = 2 := by decide

/-- Scenario of claim C2: Dune has stock 5 and price 499.0, the cart holds
one line of quantity 2. -/
def singleLineStore : StoreState :=
  { inventory := [dune], sales := [],
    cart := [{ title := "Dune", quantity := 2, price := 499 }],
    receipt := none }

/-- Claim C2 (code divergence): on a cart that passes validation the stock
is decremented (5 → 3), one sale row with Quantity 2, PricePerUnit 499 and
Total 998 is appended, a receipt is written — but `cart.clear()` on line 131
names the undefined global `cart`, so the operation raises `NameError`
instead of returning the success message, and the cart is not cleared. -/
theorem checkout_success_path_raises :
    (checkout singleLineStore "2026-10-12").1 = .error (.nameError "cart") ∧
    (checkout singleLineStore "2026-10-12").2.inventory.map Book.stock = [3] ∧
    (checkout singleLineStore "2026-10-12").2.sales =
      [{ date := "2026-10-12", title := "Dune", quantity := 2,
         pricePerUnit := 499, total := 998 }] ∧
    (checkout singleLineStore "2026-10-12").2.receipt =
      some { date := "2026-10-12", lines := singleLineStore.cart, total := 998 } ∧
    (checkout singleLineStore "2026-10-12").2.cart = singleLineStore.cart ∧
    (checkout singleLineStore "2026-10-12").2.cart ≠ [] := by
  have hv : validateCart singleLineStore.inventory singleLineStore.cart = none := by
    decide
  have hstep : checkout singleLineStore "2026-10-12" =
      (.error (.nameError "cart"),
       { singleLineStore with
          inventory := applyPurchases singleLineStore.inventory singleLineStore.cart,
          sales := singleLineStore.sales ++
            singleLineStore.cart.map (mkSale "2026-10-12"),
          receipt := some { date := "2026-10-12", lines := singleLineStore.cart,
                            total := cartTotal singleLineStore.cart } }) := by
    unfold checkout
    rw [if_neg (by decide : ¬ singleLineStore.cart = []), hv]
  refine ⟨by rw [hstep], by decide, ?_, ?_, by rw [hstep], by decide⟩
  · rw [hstep]
    simp only [singleLineStore, List.map_cons, List.map_nil, List.nil_append, mkSale]
    norm_num
  · rw [hstep]
    simp only [singleLineStore, cartTotal, List.foldl_cons, List.foldl_nil]
    norm_num

/-- A two-book state whose cart passes validation. -/
def twoBookStore : StoreState :=
  { inventory := [dune,
      { title := "Emma", author := some "Austen", publisher := "JM",
        stock := 4, price := 120 }],
    sales := [],
    cart := [{ title := "Emma", quantity := 1, price := 120 }],
    receipt := none }

/-- Claim C3 (code divergence): `checkout` does not convert every error into
a returned status message — on any cart that passes validation it raises an
uncaught `NameError` (`cart` is not a defined name; the global list is
`cart_items`). -/
theorem checkout_raises_uncaught_exception :
    (checkout twoBookStore "2026-10-12").1 = .error (.nameError "cart") := by decide

/-- Claim C4: checkout is atomic on validation failure — whenever the
validation loop fails (first bad line: unknown title, or quantity above the
stock of the matching row), `checkout` returns that failure message with no
receipt and the whole state (inventory, sales, cart, receipt) is exactly the
pre-checkout state. -/
theorem checkout_atomic_on_validation_failure (s : StoreState) (now : String)
    (m : Msg) (h : validateCart s.inventory s.cart = some m) :
    checkout s now = (.ok (m, none), s) := by
  have hne : s.cart ≠ [] := by
    intro hc
    rw [hc] at h
    simp [validateCart] at h
  unfold checkout
  rw [if_neg hne, h]

/-- A state whose single cart line asks for more than the stock. -/
def overAskStore : StoreState :=
  { inventory := [dune], sales := [],
    cart := [{ title := "Dune", quantity := 9, price := 499 }],
    receipt := none }

/-- Concrete instance of `checkout_atomic_on_validation_failure`: asking for
9 of Dune with stock 5 fails validation and leaves the state untouched. -/
theorem checkout_atomic_witness :
    validateCart overAskStore.inventory overAskStore.cart =
      some (.notEnoughStock "Dune" 5) ∧
    checkout overAskStore "2026-10-12" =
      (.ok (.notEnoughStock "Dune" 5, none), overAskStore) :=
  ⟨by decide,
   checkout_atomic_on_validation_failure overAskStore "2026-10-12" _ (by decide)⟩

/-- A state with empty tables and empty cart. -/
def emptyStore : StoreState :=
  { inventory := [], sales := [], cart := [], receipt := none }

/-- Claim C7 counterexample: for a title that is not in the inventory,
`add_to_cart` with quantity 0 returns the "book not found" message, not the
"invalid quantity" one — the title check runs first. -/
theorem cart_add_nonpositive_unknown_title_cex :
    (add_to_cart emptyStore "X" 0).1 = .bookNotFoundCart ∧
    (add_to_cart emptyStore "X" 0).1 ≠ .invalidQuantity := by decide

/-- Claim C7, amended: for any quantity ≤ 0 the cart (and the rest of the
state) is left unchanged, and the failure is the invalid-quantity message
when the title is present in the inventory, the book-not-found message when
it is not. -/
theorem cart_add_nonpositive_quantity (s : StoreState) (t : String) (q : Int)
    (h : q ≤ 0) :
    (add_to_cart s t q).2 = s ∧
    ((∃ b ∈ s.inventory, b.title = t) →
      (add_to_cart s t q).1 = .invalidQuantity) ∧
    ((∀ b ∈ s.inventory, b.title ≠ t) →
      (add_to_cart s t q).1 = .bookNotFoundCart) := by
  cases hfb : findBook s.inventory t with
  | none =>
    unfold add_to_cart
    rw [hfb]
    refine ⟨rfl, fun hex => ?_, fun _ => rfl⟩
    obtain ⟨b, hb, hbt⟩ := hex
    exact absurd hbt (findBook_eq_none_iff.mp hfb b hb)
  | some row =>
    unfold add_to_cart
    simp only [hfb]
    rw [if_pos h]
    refine ⟨rfl, fun _ => rfl, fun hall => ?_⟩
    have hs : (findBook s.inventory t).isSome := by rw [hfb]; rfl
    obtain ⟨b, hb, hbt⟩ := findBook_isSome_iff.mp hs
    exact absurd hbt (hall b hb)

/-- Concrete instance of `cart_add_nonpositive_quantity`: quantity 0 for a
known title fails with the invalid-quantity message, state unchanged. -/
theorem cart_add_nonpositive_quantity_witness :
    (0 : Int) ≤ 0 ∧
    (add_to_cart singleLineStore "Dune" 0).2 = singleLineStore :=
  ⟨le_refl 0, (cart_add_nonpositive_quantity singleLineStore "Dune" 0 (le_refl 0)).1⟩

/-- Claim C10: every successful cart add appends exactly one line at the end
of the cart, with the quantity asked for and the price snapshot taken from
the first matching inventory row at add time; nothing else in the state
changes, and existing lines (even for the same title) are untouched. -/
theorem cart_add_appends_one_line (s : StoreState) (t : String) (q : Int)
    (b : Book) (hf : findBook s.inventory t = some b) (hq : 0 < q) :
    add_to_cart s t q = (.addedToCart q t,
      { s with cart := s.cart ++ [{ title := t, quantity := q,
                                    price := b.price }] }) := by
  unfold add_to_cart
  simp only [hf]
  rw [if_neg (not_le.mpr hq)]

/-- A state whose cart already holds a Dune line with an older price
snapshot (450) while the inventory price is 499. -/
def staleSnapshotStore : StoreState :=
  { inventory := [dune], sales := [],
    cart := [{ title := "Dune", quantity := 1, price := 450 }],
    receipt := none }

/-- Concrete instance of `cart_add_appends_one_line`: adding Dune again does
not merge with the existing Dune line; a second line is appended carrying
the current price 499 while the old line keeps its 450 snapshot. -/
theorem cart_add_appends_one_line_witness :
    findBook staleSnapshotStore.inventory "Dune" = some dune ∧
    add_to_cart staleSnapshotStore "Dune" 2 = (.addedToCart 2 "Dune",
      { staleSnapshotStore with cart :=
          [{ title := "Dune", quantity := 1, price := 450 },
           { title := "Dune", quantity := 2, price := 499 }] }) :=
  ⟨by decide, by
    have h := cart_add_appends_one_line staleSnapshotStore "Dune" 2 dune
      (by decide) (by decide)
    simpa [staleSnapshotStore, dune] using h⟩

lemma editFirst_append_first (pre : List Book) (b : Book) (post : List Book)
    (t : String) (ns : Int) (np : Rat)
    (hpre : ∀ x ∈ pre, x.title ≠ t) (hb : b.title = t) :
    editFirst (pre ++ b :: post) t ns np =
      pre ++ { b with stock := if ns ≥ 0 then ns else b.stock,
                      price := if np ≥ 0 then np else b.price } :: post := by
  induction pre with
  | nil => simp [editFirst, hb]
  | cons hd tl ih =>
    have hhd : hd.title ≠ t := hpre hd (List.mem_cons_self hd tl)
    simp only [List.cons_append, editFirst, if_neg hhd]
    exact congrArg (List.cons hd) (ih (fun x hx => hpre x (List.mem_cons_of_mem hd hx)))

/-- Claim C8: on the first inventory row whose title matches, `edit_book`
overwrites Stock exactly when `new_stock ≥ 0` and Price exactly when
`new_price ≥ 0` (so the sentinel −1 leaves each unchanged); the row's other
fields, every other row, and the rest of the state are untouched, and the
result message is the success one. -/
theorem edit_book_updates_first_match (s : StoreState) (t : String) (ns : Int)
    (np : Rat) (pre post : List Book) (b : Book)
    (hsplit : s.inventory = pre ++ b :: post)
    (hpre : ∀ x ∈ pre, x.title ≠ t) (hb : b.title = t) :
    edit_book s t ns np = (.bookUpdated,
      { s with inventory := pre ++
          { b with stock := if ns ≥ 0 then ns else b.stock,
                   price := if np ≥ 0 then np else b.price } :: post }) := by
  have hf : (findBook s.inventory t).isSome := by
    rw [findBook_isSome_iff]
    exact ⟨b, by rw [hsplit]; exact List.mem_append_right _ (List.mem_cons_self b post), hb⟩
  unfold edit_book
  rw [if_pos hf, hsplit, editFirst_append_first pre b post t ns np hpre hb]

/-- A state holding just the Dune row. -/
def priceEditStore : StoreState :=
  { inventory := [dune], sales := [], cart := [], receipt := none }

/-- Concrete instance of `edit_book_updates_first_match`, the spec scenario:
`edit_book("Dune", -1, 550.0)` leaves Stock at 5 and sets Price to 550. -/
theorem edit_book_dune_witness :
    priceEditStore.inventory = [] ++ dune :: [] ∧
    edit_book priceEditStore "Dune" (-1) 550 = (.bookUpdated,
      { priceEditStore with inventory :=
          [{ title := "Dune", author := some "Herbert", publisher := "Ace",
             stock := 5, price := 550 }] }) :=
  ⟨rfl, by
    have h := edit_book_updates_first_match priceEditStore "Dune" (-1) 550 [] []
      dune rfl (fun x hx => absurd hx (List.not_mem_nil x)) rfl
    simpa [dune] using h⟩

lemma editFirst_map_title (df : List Book) (t : String) (ns : Int) (np : Rat) :
    (editFirst df t ns np).map Book.title = df.map Book.title := by
  induction df with
  | nil => rfl
  | cons hd tl ih =>
    by_cases h : hd.title = t
    · simp [editFirst, h]
    · simp [editFirst, h, ih]

lemma titlesNodup_applyOp (s : StoreState) (op : AdminOp) (h : TitlesNodup s) :
    TitlesNodup (applyOp s op) := by
  cases op with
  | addB t a1 a2 p st pr =>
    simp only [applyOp, add_book]
    by_cases hf : (findBook s.inventory t).isSome
    · rw [if_pos hf]
      exact h
    · rw [if_neg hf]
      unfold TitlesNodup at h ⊢
      simp only [List.map_append, List.map_cons, List.map_nil]
      rw [List.nodup_append]
      refine ⟨h, List.nodup_singleton _, ?_⟩
      intro a ha hb
      simp only [List.mem_singleton] at hb
      subst hb
      rw [List.mem_map] at ha
      obtain ⟨b, hbmem, hbt⟩ := ha
      rw [Option.not_isSome_iff_eq_none] at hf
      exact (findBook_eq_none_iff.mp hf b hbmem) hbt
  | editB t ns np =>
    simp only [applyOp, edit_book]
    by_cases hf : (findBook s.inventory t).isSome
    · rw [if_pos hf]
      show (List.map Book.title (editFirst s.inventory t ns np)).Nodup
      rw [editFirst_map_title]
      exact h
    · rw [if_neg hf]
      exact h
  | removeB t =>
    simp only [applyOp, remove_book]
    by_cases hf : (findBook s.inventory t).isSome
    · rw [if_pos hf]
      show (List.map Book.title (s.inventory.filter fun b => b.title != t)).Nodup
      exact List.Nodup.sublist ((List.filter_sublist _).map Book.title) h
    · rw [if_neg hf]
      exact h

lemma titlesNodup_applyOps : ∀ (ops : List AdminOp) (s : StoreState),
    TitlesNodup s → TitlesNodup (applyOps s ops)
  | [], _, h => h
  | op :: ops, s, h =>
    titlesNodup_applyOps ops (applyOp s op) (titlesNodup_applyOp s op h)

/-- Claim C6: `add_book` fails with the duplicate message and leaves the
state unchanged exactly when the title is already present (case-sensitive
exact match); otherwise it appends one new row built from its arguments.
Consequently title uniqueness is preserved by every sequence of add / edit /
remove operations starting from a duplicate-free table. -/
theorem add_book_duplicate_check_and_uniqueness (s : StoreState)
    (t a1 a2 p : String) (st : Int) (pr : Rat) (ops : List AdminOp)
    (h : TitlesNodup s) :
    ((∃ b ∈ s.inventory, b.title = t) →
      add_book s t a1 a2 p st pr = (.bookExists, s)) ∧
    ((∀ b ∈ s.inventory, b.title ≠ t) →
      add_book s t a1 a2 p st pr = (.bookAdded,
        { s with inventory := s.inventory ++
            [{ title := t, author := csvAuthor (if a1 = "Other" then a2 else a1),
               publisher := p, stock := st, price := pr }] })) ∧
    TitlesNodup (applyOps s ops) := by
  refine ⟨?_, ?_, titlesNodup_applyOps ops s h⟩
  · intro hex
    have hf : (findBook s.inventory t).isSome := findBook_isSome_iff.mpr hex
    simp only [add_book]
    rw [if_pos hf]
  · intro hall
    have hf : ¬ (findBook s.inventory t).isSome := by
      rw [Option.not_isSome_iff_eq_none]
      exact findBook_eq_none_iff.mpr hall
    simp only [add_book]
    rw [if_neg hf]

/-- A duplicate-free two-row table with a pending operation list touching it. -/
def adminOpsStore : StoreState :=
  { inventory := [dune,
      { title := "Emma", author := some "Austen", publisher := "JM",
        stock := 4, price := 120 }],
    sales := [], cart := [], receipt := none }

/-- Concrete instance of `add_book_duplicate_check_and_uniqueness`: title
uniqueness survives an add / edit / remove sequence, including a duplicate
add of "Dune" that is rejected. -/
theorem add_book_uniqueness_witness :
    TitlesNodup adminOpsStore ∧
    TitlesNodup (applyOps adminOpsStore
      [.addB "Dune" "Other" "H" "P" 3 100,
       .addB "Sum" "Other" "G" "P" 2 50,
       .editB "Emma" (-1) 130,
       .removeB "Dune"]) :=
  ⟨by decide,
   (add_book_duplicate_check_and_uniqueness adminOpsStore "Dune" "Other" "H" "P"
      3 100
      [.addB "Dune" "Other" "H" "P" 3 100,
       .addB "Sum" "Other" "G" "P" 2 50,
       .editB "Emma" (-1) 130,
       .removeB "Dune"] (by decide)).2.2⟩

lemma decStock_map_title (df : List Book) (t : String) (q : Int) :
    (decStock df t q).map Book.title = df.map Book.title := by
  induction df with
  | nil => rfl
  | cons hd tl ih =>
    by_cases h : hd.title = t
    · simp [decStock, h]
    · simp [decStock, h, ih]

lemma decStock_sumQ_bound (l : CartLine) (rest : List CartLine) :
    ∀ df : List Book, (df.map Book.title).Nodup →
    (∀ b ∈ df, sumQ (l :: rest) b.title ≤ b.stock) →
    ∀ b ∈ decStock df l.title l.quantity, sumQ rest b.title ≤ b.stock := by
  intro df
  induction df with
  | nil =>
    intro _ _ b hb
    cases hb
  | cons hd tl ih =>
    intro hnd h
    simp only [List.map_cons, List.nodup_cons] at hnd
    obtain ⟨hhd, htl⟩ := hnd
    intro b hb
    by_cases hteq : hd.title = l.title
    · simp only [decStock, if_pos hteq] at hb
      rcases List.mem_cons.mp hb with rfl | hmem
      · have hx := h hd (List.mem_cons_self hd tl)
        simp only [sumQ, if_pos hteq.symm] at hx
        simp only
        omega
      · have hbt : b.title ∈ tl.map Book.title := List.mem_map_of_mem Book.title hmem
        have hne : l.title ≠ b.title := by
          intro heq
          exact hhd (by rw [hteq, heq]; exact hbt)
        have hx := h b (List.mem_cons_of_mem hd hmem)
        simp only [sumQ, if_neg hne] at hx
        omega
    · simp only [decStock, if_neg hteq] at hb
      rcases List.mem_cons.mp hb with rfl | hmem
      · have hx := h b (List.mem_cons_self b tl)
        have hne : l.title ≠ b.title := fun heq => hteq heq.symm
        simp only [sumQ, if_neg hne] at hx
        omega
      · exact ih htl (fun x hx => h x (List.mem_cons_of_mem hd hx)) b hmem

lemma applyPurchases_nonneg : ∀ (cart : List CartLine) (df : List Book),
    (df.map Book.title).Nodup →
    (∀ b ∈ df, sumQ cart b.title ≤ b.stock) →
    ∀ b ∈ applyPurchases df cart, 0 ≤ b.stock := by
  intro cart
  induction cart with
  | nil =>
    intro df _ h b hb
    have hx := h b hb
    simpa [sumQ] using hx
  | cons l rest ih =>
    intro df hnd h b hb
    refine ih (decStock df l.title l.quantity) ?_ ?_ b hb
    · rw [decStock_map_title]
      exact hnd
    · exact decStock_sumQ_bound l rest df hnd h

lemma editFirst_stock_nonneg (t : String) (ns : Int) (np : Rat) :
    ∀ df : List Book, (∀ b ∈ df, 0 ≤ b.stock) →
    ∀ b ∈ editFirst df t ns np, 0 ≤ b.stock := by
  intro df
  induction df with
  | nil =>
    intro _ b hb
    cases hb
  | cons hd tl ih =>
    intro h b hb
    by_cases hc : hd.title = t
    · simp only [editFirst, if_pos hc] at hb
      rcases List.mem_cons.mp hb with rfl | hmem
      · by_cases hns : ns ≥ 0
        · simpa [if_pos hns] using hns
        · simpa [if_neg hns] using h hd (List.mem_cons_self hd tl)
      · exact h b (List.mem_cons_of_mem hd hmem)
    · simp only [editFirst, if_neg hc] at hb
      rcases List.mem_cons.mp hb with rfl | hmem
      · exact h b (List.mem_cons_self b tl)
      · exact ih (fun x hx => h x (List.mem_cons_of_mem hd hx)) b hmem

/-- Claim C5 counterexample: `add_book` performs no validation of its stock
argument, so adding a book with stock −1 to an all-non-negative (here empty)
table yields a table with a negative Stock, refuting the claim that every
operation preserves non-negativity. -/
theorem add_book_negative_stock_cex :
    StocksNonneg emptyStore ∧
    ¬ StocksNonneg (add_book emptyStore "X" "A" "" "P" (-1) 0).2 := by decide

/-- Claim C5, amended: starting from all-non-negative stocks, `edit_book` and
`remove_book` preserve non-negativity unconditionally; `add_book` preserves
it provided the supplied stock is ≥ 0; and `checkout` preserves it provided
the inventory titles are unique and, for every row, the total quantity the
cart requests for that title is at most the row's stock (in particular
whenever validation fails, since then nothing changes). -/
theorem stocks_nonneg_amended (s : StoreState) (t a1 a2 p : String) (st : Int)
    (pr : Rat) (t2 : String) (ns : Int) (np : Rat) (t3 now : String)
    (h : StocksNonneg s) :
    (0 ≤ st → StocksNonneg (add_book s t a1 a2 p st pr).2) ∧
    StocksNonneg (edit_book s t2 ns np).2 ∧
    StocksNonneg (remove_book s t3).2 ∧
    (TitlesNodup s → (∀ b ∈ s.inventory, sumQ s.cart b.title ≤ b.stock) →
      StocksNonneg (checkout s now).2) := by
  refine ⟨?_, ?_, ?_, ?_⟩
  · intro hst
    simp only [add_book]
    by_cases hf : (findBook s.inventory t).isSome
    · rw [if_pos hf]
      exact h
    · rw [if_neg hf]
      intro b hb
      rcases List.mem_append.mp hb with hmem | hmem
      · exact h b hmem
      · simp only [List.mem_singleton] at hmem
        subst hmem
        exact hst
  · simp only [edit_book]
    by_cases hf : (findBook s.inventory t2).isSome
    · rw [if_pos hf]
      intro b hb
      exact editFirst_stock_nonneg t2 ns np s.inventory h b hb
    · rw [if_neg hf]
      exact h
  · simp only [remove_book]
    by_cases hf : (findBook s.inventory t3).isSome
    · rw [if_pos hf]
      intro b hb
      exact h b (List.mem_of_mem_filter hb)
    · rw [if_neg hf]
      exact h
  · intro hnd hfit
    unfold checkout
    by_cases hc : s.cart = []
    · rw [if_pos hc]
      exact h
    · rw [if_neg hc]
      cases hv : validateCart s.inventory s.cart with
      | some m => exact h
      | none =>
        intro b hb
        exact applyPurchases_nonneg s.cart s.inventory hnd hfit b hb

/-- Concrete instance of `stocks_nonneg_amended`: an `edit_book` call with a
negative sentinel stock leaves all stocks non-negative. -/
theorem stocks_nonneg_amended_witness :
    StocksNonneg priceEditStore ∧
    StocksNonneg (edit_book priceEditStore "Dune" (-1) 550).2 :=
  ⟨by decide,
   (stocks_nonneg_amended priceEditStore "X" "A" "" "P" 0 0 "Dune" (-1) 550 "Y"
      "now" (by decide)).2.1⟩

/-- Claim C9: `list_authors` (that is, `get_unique_authors`) returns the
distinct authors of the current inventory in sorted order; missing (NaN)
authors never appear, and — on any table as produced by the CSV round trip,
where an empty author is stored as a missing value — the empty string never
appears either; the state is returned unchanged (the function only reads the
inventory table). -/
theorem list_authors_sorted_distinct (s : StoreState)
    (h : ∀ b ∈ s.inventory, b.author ≠ some "") :
    (get_unique_authors s).1.Sorted (· ≤ ·) ∧
    (get_unique_authors s).1.Nodup ∧
    (∀ a, a ∈ (get_unique_authors s).1 ↔ ∃ b ∈ s.inventory, b.author = some a) ∧
    "" ∉ (get_unique_authors s).1 ∧
    (get_unique_authors s).2 = s := by
  have hmem : ∀ a, a ∈ (get_unique_authors s).1 ↔
      ∃ b ∈ s.inventory, b.author = some a := by
    intro a
    unfold get_unique_authors
    rw [List.Perm.mem_iff (List.perm_insertionSort _ _), List.mem_dedup,
      List.mem_filterMap]
  refine ⟨List.sorted_insertionSort _ _, ?_, hmem, ?_, rfl⟩
  · exact ((List.perm_insertionSort _ _).nodup_iff).mpr (List.nodup_dedup _)
  · intro hin
    obtain ⟨b, hb, hba⟩ := (hmem "").mp hin
    exact h b hb hba

/-- Inventory whose authors include a missing one and a duplicate. -/
def authorStore : StoreState :=
  { inventory :=
      [{ title := "B1", author := some "Zoe", publisher := "P", stock := 1, price := 10 },
       { title := "B2", author := none, publisher := "P", stock := 1, price := 10 },
       { title := "B3", author := some "Ann", publisher := "P", stock := 1, price := 10 },
       { title := "B4", author := some "Zoe", publisher := "Q", stock := 2, price := 12 }],
    sales := [], cart := [], receipt := none }

/-- Concrete instance of `list_authors_sorted_distinct`: the distinct-author
list of `authorStore` has no duplicates and leaves the state unchanged. -/
theorem list_authors_witness :
    (get_unique_authors authorStore).1.Nodup ∧
    (get_unique_authors authorStore).2 = authorStore :=
  ⟨(list_authors_sorted_distinct authorStore (by decide)).2.1,
   (list_authors_sorted_distinct authorStore (by decide)).2.2.2.2⟩
